import Mathlib

/-!
# Verification of the drive-scanning classifier (`src/main.rs`)

A shallow embedding of the program's data model and logic:

* the `Classification` enums (`VersionControlSystem`, …, `EntryClassification`);
* `Platform` and the blacklist predicate `is_blacklisted` / `is_allowed`;
* the classifier `classify_file` / `classify_dir` / `classify`, including the
  CSV delimiter sniffing (candidate counting, stable descending sort, head);
* the `Display` instances (as `Option String`, since the source's match on
  `ConfigurationFileType` has no arms for `TeamSpeak3` / `VSCode`);
* the report filter of `scan_drive` and the drive loop of `main`.

Rust's in-place stable `sort_by(|a, b| b.1.cmp(&a.1))` is embedded as
`List.mergeSort` (Lean's stable sort) with the descending-by-count order.
Filesystem access is abstracted: a walked entry carries its path, final
component, extension and (for files) the result of `fs::read_to_string`.
-/

namespace Backup

/-- `enum VersionControlSystem` from the source. -/
inductive VersionControlSystem where
  | Git
  | Svn
deriving DecidableEq, Repr

/-- `enum DirectoryClassification` from the source. -/
inductive DirectoryClassification where
  | Regular
  | VersionControl (vcs : VersionControlSystem)
deriving DecidableEq, Repr

/-- `enum SpreadsheetFileType` from the source. -/
inductive SpreadsheetFileType where
  | Excel
  | Csv (sep : Char)
deriving DecidableEq, Repr

/-- `enum DocumentFileType` from the source. -/
inductive DocumentFileType where
  | Pdf
  | Text
  | Word
deriving DecidableEq, Repr

/-- `enum SecretFileType` from the source. -/
inductive SecretFileType where
  | Env
deriving DecidableEq, Repr

/-- `enum ConfigurationFileType` from the source (the two TODO variants included). -/
inductive ConfigurationFileType where
  | Yaml
  | Json
  | Ini
  | TeamSpeak3
  | VSCode
deriving DecidableEq, Repr

/-- `enum DatabaseFileType` from the source. -/
inductive DatabaseFileType where
  | Sqlite
  | Sql
  | Db
  | Pdb
deriving DecidableEq, Repr

/-- `enum ArchiveFileType` from the source. -/
inductive ArchiveFileType where
  | Zip
  | Rar
deriving DecidableEq, Repr

/-- `enum FileClassification` from the source. -/
inductive FileClassification where
  | Regular
  | Secret (k : SecretFileType)
  | Spreadsheet (k : SpreadsheetFileType)
  | Document (k : DocumentFileType)
  | Configuration (k : ConfigurationFileType)
  | Database (k : DatabaseFileType)
  | Archive (k : ArchiveFileType)
deriving DecidableEq, Repr

/-- `enum EntryClassification` from the source. -/
inductive EntryClassification where
  | File (c : FileClassification)
  | Dir (c : DirectoryClassification)
deriving DecidableEq, Repr

/-- Rust `str::to_ascii_lowercase` (as used via the `OptionFlatStringExt`
trait): lowercases ASCII letters only.  `Char.toLower` is exactly the
ASCII-range lowering. -/
def toAsciiLowercase (s : String) : String :=
  ⟨s.data.map Char.toLower⟩

/-- `struct Platform` from the source. -/
structure Platform where
  fs_dir_sep : Char
  sys_dir : String
  user_dir : String
  app_data : String
  tmp_dir : String

/-- The `PLATFORM` static from the source, parameterised by the user name
returned by `GetUserNameW` (the lookup itself is an external call; on failure
the process aborts before any of the logic modelled here runs). -/
def mkPlatform (name : String) : Platform :=
  { fs_dir_sep := '\\'
  , sys_dir := "C:\\Windows"
  , user_dir := "C:\\users\\" ++ name
  , app_data := "C:\\users\\" ++ name ++ "\\appdata"
  , tmp_dir := "C:\\users\\" ++ name ++ "\\appdata\\local\\temp" }

/-- A visited filesystem entry, as observed through `walkdir::DirEntry`:
`fileName` is `path().file_name().and_then(OsStr::to_str)`, `extension` is
`path().extension()` (lossy string), and `content` is the result of
`fs::read_to_string(path())` (`none` = unreadable). -/
structure WalkEntry where
  isDir : Bool
  path : String
  fileName : Option String
  extension : Option String
  content : Option String
deriving DecidableEq, Repr

/-- `DirEntryExt::is_blacklisted`: the final path component (when it is valid
UTF-8) compared against the platform's `sys_dir` and `tmp_dir`;
`unwrap_or(false)`. -/
def is_blacklisted (platform : Platform) (e : WalkEntry) : Bool :=
  (e.fileName.map (fun path => path == platform.sys_dir || path == platform.tmp_dir)).getD
    false

/-- `DirEntryExt::is_allowed`. -/
def is_allowed (platform : Platform) (e : WalkEntry) : Bool :=
  !(is_blacklisted platform e)

/-! ## Delimiter sniffing (the `Some("csv")` arm of `classify_file`) -/

/-- The first candidate in `seps`: `(char::default(), 1usize)`. -/
def sentinelSep : Char × Nat := ('\x00', 1)

/-- The remaining candidates in `seps`, in source order, each seeded `0`. -/
def realSeps : List (Char × Nat) :=
  [(',', 0), ('\t', 0), (':', 0), (';', 0), ('|', 0), (' ', 0)]

/-- The `seps` array of the source before counting. -/
def sepCandidates : List (Char × Nat) := sentinelSep :: realSeps

/-- Occurrences of `c` among the first 50,000 chars of `content`:
`csv_chars.chars().take(50_000).filter(|&c| c == *sep).count()`. -/
def countIn (content : String) (c : Char) : Nat :=
  ((content.data.take 50000).filter (fun x => x == c)).length

/-- The `*count += …` update for one candidate. -/
def addCount (content : String) (p : Char × Nat) : Char × Nat :=
  (p.1, p.2 + countIn content p.1)

/-- The `seps` array after the counting loop. -/
def countedSeps (content : String) : List (Char × Nat) :=
  sepCandidates.map (addCount content)

/-- The comparator `|a, b| b.1.cmp(&a.1)` of the source's `sort_by`:
descending by count. -/
def descByCount (a b : Char × Nat) : Bool :=
  decide (b.2 ≤ a.2)

/-- `seps.sort_by(…); seps[0].0`: Rust's `sort_by` is a stable sort, embedded
as `List.mergeSort`; `seps[0]` is the head of the sorted array. -/
def sniff (content : String) : Char :=
  (((countedSeps content).mergeSort descByCount).head!).1

/-! ## The classifier -/

/-- The inner `match extension.to_lowercase().as_deref()` of
`classify_file`, on the already-lowercased extension.  The source's match
on string-slice literals is a sequence of string-equality tests in arm
order (multi-pattern arms such as `Some("txt") | Some("log")` become
disjunctions), written here as the equivalent if-chain. -/
def classify_ext (lowExt : Option String) (content : Option String) : FileClassification :=
  match lowExt with
  | none => .Regular
  | some s =>
    if s = "xlsl" then .Spreadsheet .Excel
    else if s = "csv" then .Spreadsheet (.Csv (sniff (content.getD "")))
    else if s = "txt" ∨ s = "log" then .Document .Text
    else if s = "pdf" then .Document .Pdf
    else if s = "rtf" ∨ s = "odt" ∨ s = "xps" ∨ s = "wps" ∨ s = "dotx" ∨ s = "dotm" ∨
        s = "docx" ∨ s = "docm" ∨ s = "doc" then .Document .Word
    else if s = "db" ∨ s = "dump" then .Database .Db
    else if s = "sqlite" ∨ s = "sqlite3" then .Database .Sqlite
    else if s = "sql" ∨ s = "mysql" ∨ s = "pgsql" then .Database .Sql
    else if s = "pdb" then .Database .Pdb
    else if s = "yaml" then .Configuration .Yaml
    else if s = "json" then .Configuration .Json
    else if s = "ini" then .Configuration .Ini
    else if s = "zip" then .Archive .Zip
    else if s = "rar" then .Archive .Rar
    else .Regular

/-- `DirEntryExt::classify_file`.  `content` is the `fs::read_to_string`
result used by the `csv` arm (`unwrap_or_default` is the `getD ""` inside
`classify_ext`). -/
def classify_file (fileName extension content : Option String) : FileClassification :=
  match fileName.map toAsciiLowercase with
  | some ".env" => .Secret .Env
  | some _ => classify_ext (extension.map toAsciiLowercase) content
  | none => .Regular

/-- `DirEntryExt::classify_dir`. -/
def classify_dir (fileName : Option String) : DirectoryClassification :=
  match fileName.map toAsciiLowercase with
  | some ".git" => .VersionControl .Git
  | some ".svn" => .VersionControl .Svn
  | _ => .Regular

/-- `DirEntryExt::classify`. -/
def classify (e : WalkEntry) : EntryClassification :=
  if e.isDir then .Dir (classify_dir e.fileName)
  else .File (classify_file e.fileName e.extension e.content)

/-! ## Display (canonical labels)

The source's `Display for ConfigurationFileType` match has arms only for
`Yaml`, `Json` and `Ini`; the two TODO variants have no arm, so the label
function is partial and embedded as `Option String`. -/

/-- `Display for DirectoryClassification`; `Regular` writes nothing. -/
def displayDir : DirectoryClassification → String
  | .VersionControl .Git => "git"
  | .VersionControl .Svn => "svn"
  | .Regular => ""

/-- The `Self::Configuration` arm of `Display for FileClassification`:
no arm exists for `TeamSpeak3` or `VSCode` in the source. -/
def displayConfig : ConfigurationFileType → Option String
  | .Yaml => some "yaml"
  | .Json => some "json"
  | .Ini => some "ini"
  | .TeamSpeak3 => none
  | .VSCode => none

/-- `Display for FileClassification`; `Regular` writes nothing. -/
def displayFile : FileClassification → Option String
  | .Secret .Env => some "dotenv"
  | .Spreadsheet .Excel => some "excel"
  | .Spreadsheet (.Csv sep) => some ("csv('" ++ sep.toString ++ "')")
  | .Document .Pdf => some "pdf"
  | .Document .Text => some "txt"
  | .Document .Word => some "word"
  | .Database .Sqlite => some "sqlite"
  | .Database .Sql => some "sql"
  | .Database .Db => some "db"
  | .Database .Pdb => some "pdb"
  | .Configuration k => displayConfig k
  | .Archive .Zip => some "zip"
  | .Archive .Rar => some "rar"
  | .Regular => some ""

/-- `Display for EntryClassification`. -/
def displayEntry : EntryClassification → Option String
  | .File c => displayFile c
  | .Dir c => some (displayDir c)

/-! ## Reporting (`scan_drive` loop body and `main`) -/

/-- The `continue` filter in `scan_drive`'s match: `true` exactly on the
patterns `File(Regular)`, `File(Document(Text))`,
`File(Spreadsheet(Csv('\0')))` and `Dir(Regular)`. -/
def suppressed : EntryClassification → Bool
  | .File .Regular => true
  | .File (.Document .Text) => true
  | .File (.Spreadsheet (.Csv '\x00')) => true
  | .Dir .Regular => true
  | _ => false

/-- The line `println!("{} # {}", entry.path().display(), classification)`
printed for one entry, `none` when the entry is suppressed (or when the
label is undefined, see `displayConfig`). -/
def entryLine (e : WalkEntry) : Option String :=
  if suppressed (classify e) then none
  else (displayEntry (classify e)).map (fun label => e.path ++ " # " ++ label)

/-- An error produced by the walk for a single entry (`walkdir::Error`). -/
structure WalkError where
  msg : String
deriving DecidableEq, Repr

/-- The lines printed by `scan_drive`'s loop, given the items the `walkdir`
iterator yields for that root: errors are dropped by `filter_map(|e| e.ok())`,
entries failing `is_allowed` are dropped by `filter_entry`, the rest print
via `entryLine`. -/
def scanLines (platform : Platform) (results : List (Except WalkError WalkEntry)) :
    List String :=
  (((results.filterMap Except.toOption).filter (fun e => is_allowed platform e)).filterMap
    entryLine)

/-- `fn scan_drive`: always returns `Ok(())`; its observable output is the
line stream. -/
def scan_drive (platform : Platform) (results : List (Except WalkError WalkEntry)) :
    Except String (List String) :=
  Except.ok (scanLines platform results)

/-- `for letter in 'A'..='Z'`: the drive letters, in source order. -/
def driveLetters : List Char :=
  (List.range 26).map (fun i => Char.ofNat (65 + i))

/-- `fn main`: scans each drive letter in order (`scan_drive(letter)?`,
early-returning on an error), accumulating printed lines. `walk letter`
abstracts what the `walkdir` iterator yields for root `letter`. -/
def mainRun (platform : Platform) (walk : Char → List (Except WalkError WalkEntry)) :
    Except String (List String) :=
  driveLetters.foldlM
    (fun acc letter => (scan_drive platform (walk letter)).map (fun lines => acc ++ lines))
    []

end Backup

namespace Backup

/-! ## Spec-side delimiter selection and the sorting argument

`specPick` is modelled from the spec's words ("Selects the candidate with
the highest count; ties are broken by original candidate order"): a
left-to-right scan keeping the current best and replacing it only on a
strictly larger count.  The theorems below show the source's
stable-sort-then-head selection refines it. -/

/-- One comparison step of the spec-side scan: replace the current best
only when the new candidate's count is strictly larger. -/
def pickPref (best y : Char × Nat) : Char × Nat :=
  if best.2 < y.2 then y else best

/-- Spec-side selection over the candidates `x :: xs` in order. -/
def specPick (x : Char × Nat) (xs : List (Char × Nat)) : Char × Nat :=
  xs.foldl pickPref x

/-- Spec-side chosen delimiter for a content sample. -/
def specDelim (content : String) : Char :=
  (specPick (addCount content sentinelSep) (realSeps.map (addCount content))).1

theorem specPick_ge : ∀ (xs : List (Char × Nat)) (x : Char × Nat),
    ∀ y ∈ x :: xs, y.2 ≤ (specPick x xs).2 := by
  intro xs
  induction xs with
  | nil =>
    intro x y hy
    rcases List.mem_singleton.mp hy with rfl
    exact Nat.le_refl _
  | cons z zs ih =>
    intro x y hy
    have hstep : specPick x (z :: zs) = specPick (pickPref x z) zs := rfl
    rw [hstep]
    rcases List.mem_cons.mp hy with rfl | h
    · have h1 : y.2 ≤ (pickPref y z).2 := by
        unfold pickPref; split <;> omega
      exact Nat.le_trans h1 (ih (pickPref y z) _ (List.mem_cons_self _ _))
    · rcases List.mem_cons.mp h with rfl | h2
      · have h1 : y.2 ≤ (pickPref x y).2 := by
          unfold pickPref; split <;> omega
        exact Nat.le_trans h1 (ih (pickPref x y) _ (List.mem_cons_self _ _))
      · exact ih (pickPref x z) y (List.mem_cons_of_mem _ h2)

theorem specPick_decomp : ∀ (xs : List (Char × Nat)) (x : Char × Nat),
    ∃ l₁ l₂, x :: xs = l₁ ++ specPick x xs :: l₂ ∧
      ∀ y ∈ l₁, y.2 < (specPick x xs).2 := by
  intro xs
  induction xs with
  | nil => exact fun x => ⟨[], [], rfl, by simp⟩
  | cons z zs ih =>
    intro x
    have hstep : specPick x (z :: zs) = specPick (pickPref x z) zs := rfl
    by_cases h : x.2 < z.2
    · have hz : pickPref x z = z := if_pos h
      obtain ⟨l₁, l₂, heq, hlt⟩ := ih z
      refine ⟨x :: l₁, l₂, ?_, ?_⟩
      · rw [hstep, hz, List.cons_append, ← heq]
      · intro y hy
        rw [hstep, hz]
        rcases List.mem_cons.mp hy with rfl | hy'
        · exact Nat.lt_of_lt_of_le h (specPick_ge zs z z (List.mem_cons_self _ _))
        · exact hlt y hy'
    · have hz : pickPref x z = x := if_neg h
      obtain ⟨l₁, l₂, heq, hlt⟩ := ih x
      cases l₁ with
      | nil =>
        simp only [List.nil_append, List.cons.injEq] at heq
        obtain ⟨h1, h2⟩ := heq
        refine ⟨[], z :: zs, ?_, by simp⟩
        rw [List.nil_append, hstep, hz, ← h1]
      | cons a l₁' =>
        simp only [List.cons_append, List.cons.injEq] at heq
        obtain ⟨rfl, h2⟩ := heq
        refine ⟨x :: z :: l₁', l₂, ?_, ?_⟩
        · rw [hstep, hz]
          simp only [List.cons_append, List.cons.injEq, true_and]
          exact h2
        · intro y hy
          rw [hstep, hz]
          have hx : x.2 < (specPick x zs).2 := hlt x (List.mem_cons_self _ _)
          rcases List.mem_cons.mp hy with rfl | hy'
          · exact hx
          · rcases List.mem_cons.mp hy' with rfl | hy''
            · omega
            · exact hlt y (List.mem_cons_of_mem _ hy'')

theorem specPick_mem (xs : List (Char × Nat)) (x : Char × Nat) :
    specPick x xs ∈ x :: xs := by
  obtain ⟨l₁, l₂, heq, -⟩ := specPick_decomp xs x
  rw [heq]
  exact List.mem_append_right _ (List.mem_cons_self _ _)

theorem descByCount_trans : ∀ a b c : Char × Nat,
    descByCount a b → descByCount b c → descByCount a c := by
  intro a b c hab hbc
  simp only [descByCount, decide_eq_true_eq] at *
  omega

theorem descByCount_total : ∀ a b : Char × Nat,
    descByCount a b || descByCount b a := by
  intro a b
  rcases Nat.le_total a.2 b.2 with h | h <;> simp [descByCount, h]

/-- Head of the stable descending-by-count sort of a duplicate-free candidate
list: the earliest candidate with the maximal count. -/
theorem head_mergeSort_descByCount (x : Char × Nat) (xs : List (Char × Nat))
    (nd : (x :: xs).Nodup) :
    ((x :: xs).mergeSort descByCount).head? = some (specPick x xs) := by
  have hperm := List.mergeSort_perm (x :: xs) descByCount
  obtain ⟨h, t, hm⟩ : ∃ h t, (x :: xs).mergeSort descByCount = h :: t := by
    cases hM : (x :: xs).mergeSort descByCount with
    | nil =>
      have := (List.mergeSort_perm (x :: xs) descByCount).length_eq
      rw [hM] at this
      simp at this
    | cons a t => exact ⟨a, t, rfl⟩
  have hsorted := List.sorted_mergeSort descByCount_trans descByCount_total (x :: xs)
  rw [hm] at hsorted hperm
  have htail : ∀ y ∈ t, y.2 ≤ h.2 := by
    intro y hy
    have := (List.pairwise_cons.mp hsorted).1 y hy
    simpa [descByCount] using this
  have hmax : ∀ y ∈ x :: xs, y.2 ≤ h.2 := by
    intro y hy
    rcases List.mem_cons.mp (hperm.symm.subset hy) with rfl | hy'
    · exact Nat.le_refl _
    · exact htail y hy'
  obtain ⟨e, hE⟩ : ∃ e, specPick x xs = e := ⟨_, rfl⟩
  obtain ⟨l₁, l₂, hdec, hlt⟩ := specPick_decomp xs x
  rw [hE] at hdec hlt
  have he_mem : e ∈ x :: xs := by
    rw [hdec]; exact List.mem_append_right _ (List.mem_cons_self _ _)
  have hh_mem : h ∈ x :: xs := hperm.subset (List.mem_cons_self _ _)
  have h2 : h.2 = e.2 :=
    Nat.le_antisymm (hE ▸ specPick_ge xs x h hh_mem) (hmax e he_mem)
  rw [hm, hE]
  by_cases heq : h = e
  · rw [← heq]; rfl
  · exfalso
    have hh_l2 : h ∈ l₂ := by
      have hmem' : h ∈ l₁ ++ e :: l₂ := hdec ▸ hh_mem
      rcases List.mem_append.mp hmem' with h1 | h1
      · exact absurd (hlt h h1) (by omega)
      · rcases List.mem_cons.mp h1 with h2' | h2'
        · exact absurd h2' heq
        · exact h2'
    have hsub : List.Sublist [e, h] (x :: xs) := by
      rw [hdec]
      exact List.sublist_append_of_sublist_right
        ((List.singleton_sublist.mpr hh_l2).cons₂ e)
    have hpair := List.pair_sublist_mergeSort descByCount_trans descByCount_total
      (by simp [descByCount, h2]) hsub
    rw [hm] at hpair
    have hh_t : h ∈ t := by
      cases hpair with
      | cons _ hsub' => exact hsub'.subset (by simp)
      | cons₂ hsub' => exact absurd rfl heq
    have hnd : (h :: t).Nodup := nd.perm hperm.symm
    exact (List.nodup_cons.mp hnd).1 hh_t

theorem countedSeps_eq (content : String) :
    countedSeps content = addCount content sentinelSep :: realSeps.map (addCount content) :=
  rfl

theorem countedSeps_nodup (content : String) : (countedSeps content).Nodup := by
  have hfst : (countedSeps content).map Prod.fst = ['\x00', ',', '\t', ':', ';', '|', ' '] := by
    simp [countedSeps, sepCandidates, realSeps, sentinelSep, addCount]
  have hnd : ((countedSeps content).map Prod.fst).Nodup := by
    rw [hfst]; decide
  exact hnd.of_map

/-- The source's sort-then-head selection equals the spec-side selection. -/
theorem sniff_eq_specDelim (content : String) : sniff content = specDelim content := by
  have h := head_mergeSort_descByCount (addCount content sentinelSep)
    (realSeps.map (addCount content))
    (by rw [← countedSeps_eq]; exact countedSeps_nodup content)
  rw [← countedSeps_eq] at h
  unfold sniff specDelim
  cases hM : (countedSeps content).mergeSort descByCount with
  | nil => rw [hM] at h; simp at h
  | cons a t =>
    rw [hM] at h
    have ha : a = specPick (addCount content sentinelSep) (realSeps.map (addCount content)) :=
      Option.some.inj (by simpa using h)
    exact congrArg Prod.fst ha

end Backup

namespace Backup

/-- If every real delimiter's count is at most the sentinel's effective count
(`1 +` its own occurrences), the spec-side pick keeps the sentinel. -/
theorem specDelim_sentinel (content : String)
    (h : ∀ c ∈ ([',', '\t', ':', ';', '|', ' '] : List Char),
      countIn content c ≤ 1 + countIn content '\x00') :
    specDelim content = '\x00' := by
  have step : ∀ y : Char × Nat, y.2 ≤ 1 + countIn content '\x00' →
      pickPref (addCount content sentinelSep) y = addCount content sentinelSep := by
    intro y hy
    have hs2 : (addCount content sentinelSep).2 = 1 + countIn content '\x00' := rfl
    unfold pickPref
    rw [if_neg (by omega)]
  have h1 := h ',' (by decide)
  have h2 := h '\t' (by decide)
  have h3 := h ':' (by decide)
  have h4 := h ';' (by decide)
  have h5 := h '|' (by decide)
  have h6 := h ' ' (by decide)
  show (specPick (addCount content sentinelSep) (realSeps.map (addCount content))).1 = '\x00'
  simp only [realSeps, List.map_cons, List.map_nil, specPick, List.foldl_cons, List.foldl_nil]
  rw [step _ (by simpa [addCount, countIn] using h1),
    step _ (by simpa [addCount, countIn] using h2),
    step _ (by simpa [addCount, countIn] using h3),
    step _ (by simpa [addCount, countIn] using h4),
    step _ (by simpa [addCount, countIn] using h5),
    step _ (by simpa [addCount, countIn] using h6)]
  rfl

/-- With a non-`.env` file name, `classify_file` is the extension lookup. -/
theorem classify_file_ne_env (fn : String) (ext content : Option String)
    (hfn : toAsciiLowercase fn ≠ ".env") :
    classify_file (some fn) ext content = classify_ext (ext.map toAsciiLowercase) content := by
  unfold classify_file
  split
  next heq => exact absurd (by simpa using heq) hfn
  next => rfl
  next heq => simp at heq

/-- Every extension the source's table recognises (after lowercasing). -/
def fullExtTable : List String :=
  ["xlsl", "csv", "txt", "log", "pdf", "rtf", "odt", "xps", "wps", "dotx", "dotm",
   "docx", "docm", "doc", "db", "dump", "sqlite", "sqlite3", "sql", "mysql", "pgsql",
   "pdb", "yaml", "json", "ini", "zip", "rar"]

theorem countedSeps_fst (content : String) :
    (countedSeps content).map Prod.fst = ['\x00', ',', '\t', ':', ';', '|', ' '] := by
  simp [countedSeps, sepCandidates, realSeps, sentinelSep, addCount]

/-- The sniffed delimiter is always one of the seven candidates. -/
theorem sniff_mem (content : String) :
    sniff content ∈ (['\x00', ',', '\t', ':', ';', '|', ' '] : List Char) := by
  unfold sniff
  obtain ⟨a, t, hM⟩ : ∃ a t, (countedSeps content).mergeSort descByCount = a :: t := by
    cases hM : (countedSeps content).mergeSort descByCount with
    | nil =>
      have := (List.mergeSort_perm (countedSeps content) descByCount).length_eq
      rw [hM] at this
      simp [countedSeps, sepCandidates, realSeps] at this
    | cons a t => exact ⟨a, t, rfl⟩
  rw [hM]
  have ha : a ∈ countedSeps content := by
    have : a ∈ (countedSeps content).mergeSort descByCount := by
      rw [hM]; exact List.mem_cons_self _ _
    exact List.mem_mergeSort.mp this
  have hfst : a.1 ∈ (countedSeps content).map Prod.fst := List.mem_map_of_mem _ ha
  rw [countedSeps_fst] at hfst
  simpa using hfst

end Backup

namespace Backup

/-- A lowercased extension outside the table falls through to `Regular`. -/
theorem classify_ext_of_not_mem (s : String) (content : Option String)
    (h : s ∉ fullExtTable) :
    classify_ext (some s) content = .Regular := by
  have hne : ∀ t ∈ fullExtTable, s ≠ t := fun t ht heq => h (heq ▸ ht)
  simp only [classify_ext]
  rw [if_neg (hne "xlsl" (by decide)),
    if_neg (hne "csv" (by decide)),
    if_neg (by rintro (rfl | rfl) <;> exact h (by decide)),
    if_neg (hne "pdf" (by decide)),
    if_neg (by rintro (rfl | rfl | rfl | rfl | rfl | rfl | rfl | rfl | rfl) <;> exact h (by decide)),
    if_neg (by rintro (rfl | rfl) <;> exact h (by decide)),
    if_neg (by rintro (rfl | rfl) <;> exact h (by decide)),
    if_neg (by rintro (rfl | rfl | rfl) <;> exact h (by decide)),
    if_neg (hne "pdb" (by decide)),
    if_neg (hne "yaml" (by decide)),
    if_neg (hne "json" (by decide)),
    if_neg (hne "ini" (by decide)),
    if_neg (hne "zip" (by decide)),
    if_neg (hne "rar" (by decide))]

/-- Every value `classify_file` can produce. -/
theorem classify_file_shape (fileName extension content : Option String) :
    classify_file fileName extension content = .Regular ∨
    classify_file fileName extension content = .Secret .Env ∨
    classify_file fileName extension content = .Spreadsheet .Excel ∨
    (∃ c, c ∈ (['\x00', ',', '\t', ':', ';', '|', ' '] : List Char) ∧
      classify_file fileName extension content = .Spreadsheet (.Csv c)) ∨
    classify_file fileName extension content = .Document .Text ∨
    classify_file fileName extension content = .Document .Pdf ∨
    classify_file fileName extension content = .Document .Word ∨
    classify_file fileName extension content = .Database .Db ∨
    classify_file fileName extension content = .Database .Sqlite ∨
    classify_file fileName extension content = .Database .Sql ∨
    classify_file fileName extension content = .Database .Pdb ∨
    classify_file fileName extension content = .Configuration .Yaml ∨
    classify_file fileName extension content = .Configuration .Json ∨
    classify_file fileName extension content = .Configuration .Ini ∨
    classify_file fileName extension content = .Archive .Zip ∨
    classify_file fileName extension content = .Archive .Rar := by
  unfold classify_file
  split
  · simp
  · rcases hE : Option.map toAsciiLowercase extension with _ | s
    · simp [classify_ext]
    · by_cases hs : s ∈ fullExtTable
      · simp only [fullExtTable, List.mem_cons, List.not_mem_nil, or_false] at hs
        rcases hs with rfl|rfl|rfl|rfl|rfl|rfl|rfl|rfl|rfl|rfl|rfl|rfl|rfl|rfl|rfl|rfl|rfl|rfl|rfl|rfl|rfl|rfl|rfl|rfl|rfl|rfl|rfl
        all_goals first
          | exact Or.inr (Or.inr (Or.inr (Or.inl ⟨_, sniff_mem _, rfl⟩)))
          | simp [classify_ext]
      · rw [classify_ext_of_not_mem s content hs]
        simp
  · simp

/-- Every value `classify_dir` can produce. -/
theorem classify_dir_shape (fileName : Option String) :
    classify_dir fileName = .Regular ∨
    classify_dir fileName = .VersionControl .Git ∨
    classify_dir fileName = .VersionControl .Svn := by
  unfold classify_dir
  split <;> simp

/-- Every value `classify` can produce. -/
theorem classify_shape (e : WalkEntry) :
    classify e = .Dir .Regular ∨ classify e = .Dir (.VersionControl .Git) ∨
    classify e = .Dir (.VersionControl .Svn) ∨
    classify e = .File .Regular ∨ classify e = .File (.Secret .Env) ∨
    classify e = .File (.Spreadsheet .Excel) ∨
    (∃ c, c ∈ (['\x00', ',', '\t', ':', ';', '|', ' '] : List Char) ∧
      classify e = .File (.Spreadsheet (.Csv c))) ∨
    classify e = .File (.Document .Text) ∨ classify e = .File (.Document .Pdf) ∨
    classify e = .File (.Document .Word) ∨ classify e = .File (.Database .Db) ∨
    classify e = .File (.Database .Sqlite) ∨ classify e = .File (.Database .Sql) ∨
    classify e = .File (.Database .Pdb) ∨ classify e = .File (.Configuration .Yaml) ∨
    classify e = .File (.Configuration .Json) ∨ classify e = .File (.Configuration .Ini) ∨
    classify e = .File (.Archive .Zip) ∨ classify e = .File (.Archive .Rar) := by
  unfold classify
  by_cases hd : e.isDir = true
  · rw [if_pos hd]
    rcases classify_dir_shape e.fileName with h | h | h <;> simp [h]
  · rw [if_neg hd]
    rcases classify_file_shape e.fileName e.extension e.content with
      h|h|h|⟨c,hc,h⟩|h|h|h|h|h|h|h|h|h|h|h|h <;> simp [h]
    simpa using hc

end Backup

namespace Backup

/-! ## Claim theorems -/

/-- C2: for a file with a `csv` extension (any case), the chosen delimiter is
the candidate with the highest occurrence count within the first 50,000 code
points, over the ordered list (sentinel seeded 1, comma, tab, colon,
semicolon, pipe, space) with ties to the earlier candidate (`specDelim`); in
particular, when no real delimiter occurs in the content, the sentinel wins. -/
theorem C2_csv_delimiter (fn x : String) (content : Option String)
    (hfn : toAsciiLowercase fn ≠ ".env") (hx : toAsciiLowercase x = "csv") :
    classify_file (some fn) (some x) content =
      .Spreadsheet (.Csv (specDelim (content.getD ""))) ∧
    ((∀ c ∈ ([',', '\t', ':', ';', '|', ' '] : List Char), countIn (content.getD "") c = 0) →
      specDelim (content.getD "") = '\x00') := by
  constructor
  · rw [classify_file_ne_env fn (some x) content hfn, Option.map_some', hx,
      show classify_ext (some "csv") content
        = .Spreadsheet (.Csv (sniff (content.getD ""))) from rfl,
      sniff_eq_specDelim]
  · intro hz
    apply specDelim_sentinel
    intro c hc
    rw [hz c hc]
    omega

/-- Witness for C2 at a concrete csv file. -/
theorem C2_witness : toAsciiLowercase "data" ≠ ".env" ∧ toAsciiLowercase "csv" = "csv" ∧
    classify_file (some "data") (some "csv") (some "a,b") =
      .Spreadsheet (.Csv (specDelim "a,b")) :=
  ⟨by decide, by decide, (C2_csv_delimiter "data" "csv" (some "a,b") (by decide) (by decide)).1⟩

/-- C3: the visit predicate rejects an entry exactly when its final path
component equals the platform's system-root or temp-dir string; since both
blacklist strings contain the separator `\` and a single component cannot,
every entry whose component lacks a separator is allowed (nothing is ever
pruned in practice). -/
theorem C3_blacklist (name : String) (e : WalkEntry) :
    (is_blacklisted (mkPlatform name) e = true ↔
      (∃ s, e.fileName = some s ∧
        (s = (mkPlatform name).sys_dir ∨ s = (mkPlatform name).tmp_dir))) ∧
    (∀ s, e.fileName = some s → '\\' ∉ s.data → is_allowed (mkPlatform name) e = true) := by
  constructor
  · unfold is_blacklisted
    cases hf : e.fileName with
    | none => simp
    | some s => simp [hf]
  · intro s hs hsep
    unfold is_allowed is_blacklisted
    rw [hs]
    have h1 : s ≠ (mkPlatform name).sys_dir := by
      intro h
      apply hsep
      rw [h, show (mkPlatform name).sys_dir = "C:\\Windows" from rfl]
      decide
    have h2 : s ≠ (mkPlatform name).tmp_dir := by
      intro h
      apply hsep
      rw [h, show (mkPlatform name).tmp_dir
        = "C:\\users\\" ++ name ++ "\\appdata\\local\\temp" from rfl]
      simp only [String.data_append, List.mem_append]
      left; left; decide
    simp [h1, h2]

/-- Witness for C3: a component equal to `Windows` (no separator) is allowed. -/
theorem C3_witness :
    is_allowed (mkPlatform "alice") ⟨false, "C:\\Windows", some "Windows", none, none⟩ = true :=
  (C3_blacklist "alice" ⟨false, "C:\\Windows", some "Windows", none, none⟩).2 "Windows" rfl
    (by decide)

/-- C4: evaluation of the code at the claim's inputs: the extension table
matches only the literal `xlsl`, so real Excel extensions `xls` and `xlsx`
classify as `Regular`, contradicting the claim (and the spec's intent of
covering the legacy and modern Excel extensions; the source's TODO comment
marks the table as incomplete and `xlsl` is not an Excel extension). -/
theorem C4_excel_extension_eval :
    classify_file (some "book.xlsx") (some "xlsx") none = .Regular ∧
    classify_file (some "book.xls") (some "xls") none = .Regular ∧
    classify_file (some "book.xlsl") (some "xlsl") none = .Spreadsheet .Excel := by
  decide

/-- C5: a file named `.env` in any letter case classifies as `Secret(Env)`
regardless of extension and content; the check precedes the extension table. -/
theorem C5_dotenv (fn : String) (ext content : Option String)
    (h : toAsciiLowercase fn = ".env") :
    classify_file (some fn) ext content = .Secret .Env := by
  unfold classify_file
  rw [Option.map_some', h]
  rfl

/-- Witness for C5 at filename `.ENV` with a txt extension. -/
theorem C5_witness : toAsciiLowercase ".ENV" = ".env" ∧
    classify_file (some ".ENV") (some "txt") (some "xyz") = .Secret .Env :=
  ⟨by decide, C5_dotenv ".ENV" (some "txt") (some "xyz") (by decide)⟩

/-- C6 counterexample: extension `log` lies outside the claim's twelve-entry
table yet classifies as `Document(Text)`, not `File(Regular)`. -/
theorem C6_counterexample_log :
    ("log" ∉ (["docx", "pdf", "sqlite", "zip", "yaml", "json", "ini", "rar",
        "sql", "pdb", "db", "txt"] : List String)) ∧
    classify_file (some "notes.log") (some "log") none = .Document .Text ∧
    classify_file (some "notes.log") (some "log") none ≠ .Regular := by
  decide

/-- C6 (amended): the twelve documented mappings hold, the full table also
maps log→Text, dump→Db, sqlite3→Sqlite, mysql/pgsql→Sql,
rtf/odt/xps/wps/dotx/dotm/docm/doc→Word, xlsl→Excel and csv→Csv(sniffed),
and an extension outside this full table, or a missing extension, maps to
`Regular`. -/
theorem C6_extension_table (fn x : String) (content : Option String)
    (hfn : toAsciiLowercase fn ≠ ".env") :
    (toAsciiLowercase x = "docx" → classify_file (some fn) (some x) content = .Document .Word) ∧
    (toAsciiLowercase x = "pdf" → classify_file (some fn) (some x) content = .Document .Pdf) ∧
    (toAsciiLowercase x = "sqlite" → classify_file (some fn) (some x) content = .Database .Sqlite) ∧
    (toAsciiLowercase x = "zip" → classify_file (some fn) (some x) content = .Archive .Zip) ∧
    (toAsciiLowercase x = "yaml" → classify_file (some fn) (some x) content = .Configuration .Yaml) ∧
    (toAsciiLowercase x = "json" → classify_file (some fn) (some x) content = .Configuration .Json) ∧
    (toAsciiLowercase x = "ini" → classify_file (some fn) (some x) content = .Configuration .Ini) ∧
    (toAsciiLowercase x = "rar" → classify_file (some fn) (some x) content = .Archive .Rar) ∧
    (toAsciiLowercase x = "sql" → classify_file (some fn) (some x) content = .Database .Sql) ∧
    (toAsciiLowercase x = "pdb" → classify_file (some fn) (some x) content = .Database .Pdb) ∧
    (toAsciiLowercase x = "db" → classify_file (some fn) (some x) content = .Database .Db) ∧
    (toAsciiLowercase x = "txt" → classify_file (some fn) (some x) content = .Document .Text) ∧
    (toAsciiLowercase x = "log" → classify_file (some fn) (some x) content = .Document .Text) ∧
    (toAsciiLowercase x = "dump" → classify_file (some fn) (some x) content = .Database .Db) ∧
    (toAsciiLowercase x = "sqlite3" → classify_file (some fn) (some x) content = .Database .Sqlite) ∧
    (toAsciiLowercase x = "mysql" → classify_file (some fn) (some x) content = .Database .Sql) ∧
    (toAsciiLowercase x = "pgsql" → classify_file (some fn) (some x) content = .Database .Sql) ∧
    (toAsciiLowercase x = "rtf" → classify_file (some fn) (some x) content = .Document .Word) ∧
    (toAsciiLowercase x = "odt" → classify_file (some fn) (some x) content = .Document .Word) ∧
    (toAsciiLowercase x = "xps" → classify_file (some fn) (some x) content = .Document .Word) ∧
    (toAsciiLowercase x = "wps" → classify_file (some fn) (some x) content = .Document .Word) ∧
    (toAsciiLowercase x = "dotx" → classify_file (some fn) (some x) content = .Document .Word) ∧
    (toAsciiLowercase x = "dotm" → classify_file (some fn) (some x) content = .Document .Word) ∧
    (toAsciiLowercase x = "docm" → classify_file (some fn) (some x) content = .Document .Word) ∧
    (toAsciiLowercase x = "doc" → classify_file (some fn) (some x) content = .Document .Word) ∧
    (toAsciiLowercase x = "xlsl" → classify_file (some fn) (some x) content = .Spreadsheet .Excel) ∧
    (toAsciiLowercase x = "csv" → classify_file (some fn) (some x) content
      = .Spreadsheet (.Csv (sniff (content.getD "")))) ∧
    (toAsciiLowercase x ∉ fullExtTable → classify_file (some fn) (some x) content = .Regular) ∧
    classify_file (some fn) none content = .Regular := by
  have key : ∀ t : String, toAsciiLowercase x = t →
      classify_file (some fn) (some x) content = classify_ext (some t) content := by
    intro t ht
    rw [classify_file_ne_env fn (some x) content hfn, Option.map_some', ht]
  exact ⟨fun h => (key _ h).trans rfl, fun h => (key _ h).trans rfl,
    fun h => (key _ h).trans rfl, fun h => (key _ h).trans rfl,
    fun h => (key _ h).trans rfl, fun h => (key _ h).trans rfl,
    fun h => (key _ h).trans rfl, fun h => (key _ h).trans rfl,
    fun h => (key _ h).trans rfl, fun h => (key _ h).trans rfl,
    fun h => (key _ h).trans rfl, fun h => (key _ h).trans rfl,
    fun h => (key _ h).trans rfl, fun h => (key _ h).trans rfl,
    fun h => (key _ h).trans rfl, fun h => (key _ h).trans rfl,
    fun h => (key _ h).trans rfl, fun h => (key _ h).trans rfl,
    fun h => (key _ h).trans rfl, fun h => (key _ h).trans rfl,
    fun h => (key _ h).trans rfl, fun h => (key _ h).trans rfl,
    fun h => (key _ h).trans rfl, fun h => (key _ h).trans rfl,
    fun h => (key _ h).trans rfl, fun h => (key _ h).trans rfl,
    fun h => (key _ h).trans rfl,
    fun h => (key _ rfl).trans (classify_ext_of_not_mem _ content h),
    (classify_file_ne_env fn none content hfn).trans rfl⟩

/-- Witness for C6 at extension `DOCX`. -/
theorem C6_witness : toAsciiLowercase "a.docx" ≠ ".env" ∧ toAsciiLowercase "DOCX" = "docx" ∧
    classify_file (some "a.docx") (some "DOCX") none = .Document .Word :=
  ⟨by decide, by decide,
    (C6_extension_table "a.docx" "DOCX" none (by decide)).1 (by decide)⟩

/-- C7: for a csv-extension file whose content is empty or unreadable, the
content is replaced by the empty string, the sniffed delimiter is the
sentinel, and the entry produces no report line. -/
theorem C7_unreadable_csv (fn x : String) (content : Option String) (p : String)
    (hfn : toAsciiLowercase fn ≠ ".env") (hx : toAsciiLowercase x = "csv")
    (hc : content = none ∨ content = some "") :
    content.getD "" = "" ∧
    classify_file (some fn) (some x) content = .Spreadsheet (.Csv '\x00') ∧
    entryLine ⟨false, p, some fn, some x, content⟩ = none := by
  have hget : content.getD "" = "" := by rcases hc with rfl | rfl <;> rfl
  have hcl : classify_file (some fn) (some x) content = .Spreadsheet (.Csv '\x00') := by
    rw [classify_file_ne_env fn (some x) content hfn, Option.map_some', hx,
      show classify_ext (some "csv") content
        = .Spreadsheet (.Csv (sniff (content.getD ""))) from rfl,
      hget, sniff_eq_specDelim]
    rw [show specDelim "" = '\x00' from by decide]
  have hsup : entryLine ⟨false, p, some fn, some x, content⟩ = none := by
    unfold entryLine
    have hcls : classify ⟨false, p, some fn, some x, content⟩
        = .File (.Spreadsheet (.Csv '\x00')) := by
      unfold classify
      simp only [Bool.false_eq_true, if_false]
      rw [hcl]
    rw [hcls]
    rfl
  exact ⟨hget, hcl, hsup⟩

/-- Witness for C7 at an unreadable csv file. -/
theorem C7_witness : toAsciiLowercase "d.csv" ≠ ".env" ∧ toAsciiLowercase "csv" = "csv" ∧
    classify_file (some "d.csv") (some "csv") none = .Spreadsheet (.Csv '\x00') ∧
    entryLine ⟨false, "C:\\d.csv", some "d.csv", some "csv", none⟩ = none := by
  have h := C7_unreadable_csv "d.csv" "csv" none "C:\\d.csv" (by decide) (by decide) (Or.inl rfl)
  exact ⟨by decide, by decide, h.2.1, h.2.2⟩

/-- C8: the process scans exactly the drive roots `A`–`Z` in that order, each
root's lines fully emitted before the next root's; a root whose walk yields
only errors (a nonexistent root) contributes zero lines and no error; the run
returns a success value. -/
theorem C8_drive_loop (platform : Platform)
    (walk : Char → List (Except WalkError WalkEntry)) :
    driveLetters = ['A', 'B', 'C', 'D', 'E', 'F', 'G', 'H', 'I', 'J', 'K', 'L', 'M',
      'N', 'O', 'P', 'Q', 'R', 'S', 'T', 'U', 'V', 'W', 'X', 'Y', 'Z'] ∧
    mainRun platform walk =
      Except.ok ((driveLetters.map (fun l => scanLines platform (walk l))).flatten) ∧
    (∀ l, (∀ r ∈ walk l, ∃ err, r = Except.error err) → scanLines platform (walk l) = []) := by
  refine ⟨by decide, ?_, ?_⟩
  · have gen : ∀ (ls : List Char) (acc : List String),
        List.foldlM
          (fun acc letter => (scan_drive platform (walk letter)).map (fun lines => acc ++ lines))
          acc ls
          = Except.ok (acc ++ (ls.map (fun l => scanLines platform (walk l))).flatten) := by
      intro ls
      induction ls with
      | nil =>
        intro acc
        simp only [List.foldlM_nil, List.map_nil, List.flatten_nil, List.append_nil]
        rfl
      | cons a ls ih =>
        intro acc
        rw [List.foldlM_cons,
          show ((scan_drive platform (walk a)).map (fun lines => acc ++ lines)
            = Except.ok (acc ++ scanLines platform (walk a))) from rfl]
        show List.foldlM _ (acc ++ scanLines platform (walk a)) ls = _
        rw [ih]
        simp [List.append_assoc]
    simpa using gen driveLetters []
  · intro l hl
    unfold scanLines
    have hnil : (walk l).filterMap Except.toOption = [] := by
      rw [List.filterMap_eq_nil_iff]
      intro r hr
      obtain ⟨err, rfl⟩ := hl r hr
      rfl
    rw [hnil]
    rfl

/-- Witness for C8: a root yielding one walk error produces no lines. -/
theorem C8_witness :
    scanLines (mkPlatform "u") [Except.error ⟨"missing root"⟩] = [] :=
  (C8_drive_loop (mkPlatform "u") (fun _ => [Except.error ⟨"missing root"⟩])).2.2 'C'
    (fun r hr => ⟨⟨"missing root"⟩, by simpa using hr⟩)

/-- C9: every `Csv` delimiter `classify` can produce lies in the fixed
seven-candidate set, `classify` never produces the `TeamSpeak3` or `VSCode`
configuration variants, and hence every classification it returns has a
defined canonical label. -/
theorem C9_reachable (e : WalkEntry) :
    (∀ c, classify e = .File (.Spreadsheet (.Csv c)) →
      c ∈ (['\x00', ',', '\t', ':', ';', '|', ' '] : List Char)) ∧
    classify e ≠ .File (.Configuration .TeamSpeak3) ∧
    classify e ≠ .File (.Configuration .VSCode) ∧
    (displayEntry (classify e)).isSome = true := by
  rcases classify_shape e with h|h|h|h|h|h|⟨c,hc,h⟩|h|h|h|h|h|h|h|h|h|h|h|h <;>
    simp [h, displayEntry, displayFile, displayDir, displayConfig]
  simpa using hc

/-- Witness for C9 at a concrete csv entry whose sniffed delimiter is the
sentinel. -/
theorem C9_witness :
    classify (⟨false, "C:\\d.csv", some "d.csv", some "csv", none⟩ : WalkEntry)
      = .File (.Spreadsheet (.Csv '\x00')) ∧
    '\x00' ∈ (['\x00', ',', '\t', ':', ';', '|', ' '] : List Char) := by
  have hcl : classify (⟨false, "C:\\d.csv", some "d.csv", some "csv", none⟩ : WalkEntry)
      = .File (.Spreadsheet (.Csv '\x00')) := by
    unfold classify
    simp only [Bool.false_eq_true, if_false]
    rw [classify_file_ne_env "d.csv" (some "csv") none (by decide), Option.map_some',
      show toAsciiLowercase "csv" = "csv" from by decide,
      show classify_ext (some "csv") none
        = .Spreadsheet (.Csv (sniff ((none : Option String).getD ""))) from rfl,
      sniff_eq_specDelim]
    decide
  exact ⟨hcl, (C9_reachable _).1 '\x00' hcl⟩

/-- A classification with a Csv delimiter other than the sentinel is not
suppressed. -/
theorem suppressed_csv_of_ne (c : Char) (hc : c ≠ '\x00') :
    suppressed (.File (.Spreadsheet (.Csv c))) = false := by
  unfold suppressed
  split
  any_goals rfl
  all_goals simp_all

/-- The line printed for an entry with a known non-suppressed, labelled
classification. -/
theorem entryLine_eq_of_classify (e : WalkEntry) (K : EntryClassification)
    (h : classify e = K) (hsup : suppressed K = false) (lab : String)
    (hlab : displayEntry K = some lab) :
    entryLine e = some (e.path ++ " # " ++ lab) := by
  unfold entryLine
  rw [h, hsup, hlab]
  rfl

/-- The suppression iff and the shape of every printed line, for every
entry. -/
theorem entryLine_none_iff_and_form (e : WalkEntry) :
    (entryLine e = none ↔ (classify e = .Dir .Regular ∨ classify e = .File .Regular ∨
        classify e = .File (.Document .Text) ∨
        classify e = .File (.Spreadsheet (.Csv '\x00')))) ∧
    (∀ s, entryLine e = some s → ∃ label, s = e.path ++ " # " ++ label ∧
      (label ∈ (["git", "svn", "dotenv", "excel", "pdf", "word", "yaml", "json", "ini",
          "sqlite", "sql", "db", "pdb", "zip", "rar"] : List String) ∨
        ∃ c, c ∈ ([',', '\t', ':', ';', '|', ' '] : List Char) ∧
          label = "csv('" ++ c.toString ++ "')")) := by
  rcases classify_shape e with h|h|h|h|h|h|hC|h|h|h|h|h|h|h|h|h|h|h|h
  all_goals first
    | (simp [entryLine, h, suppressed, displayEntry, displayFile, displayDir, displayConfig];
        done)
    | (simp [entryLine, h, suppressed, displayEntry, displayFile, displayDir, displayConfig];
        exact ⟨_, rfl, by simp⟩)
    | skip
  obtain ⟨c, hc, h⟩ := hC
  simp only [List.mem_cons, List.not_mem_nil, or_false] at hc
  rcases hc with rfl|rfl|rfl|rfl|rfl|rfl|rfl <;>
    first
      | (simp [entryLine, h, suppressed, displayEntry, displayFile]; done)
      | (simp [entryLine, h, suppressed, displayEntry, displayFile]; exact ⟨_, rfl, by simp⟩)

/-- C1: for every visited entry, no line is emitted exactly when the
classification is `Dir(Regular)`, `File(Regular)`, `File(Document(Text))` or
`File(Spreadsheet(Csv(sentinel)))`; every other classification prints one
line `<path> # <label>`, and the label is the fixed canonical string of that
very variant: git, svn, dotenv, excel, `csv('<char>')` with that
classification's delimiter char, pdf, word, yaml, json, ini, sqlite, sql,
db, pdb, zip, rar. -/
theorem C1_report_line (e : WalkEntry) :
    (entryLine e = none ↔ (classify e = .Dir .Regular ∨ classify e = .File .Regular ∨
        classify e = .File (.Document .Text) ∨
        classify e = .File (.Spreadsheet (.Csv '\x00')))) ∧
    (∀ s, entryLine e = some s → ∃ label, s = e.path ++ " # " ++ label ∧
      (label ∈ (["git", "svn", "dotenv", "excel", "pdf", "word", "yaml", "json", "ini",
          "sqlite", "sql", "db", "pdb", "zip", "rar"] : List String) ∨
        ∃ c, c ∈ ([',', '\t', ':', ';', '|', ' '] : List Char) ∧
          label = "csv('" ++ c.toString ++ "')")) ∧
    (classify e = .Dir (.VersionControl .Git) →
      entryLine e = some (e.path ++ " # " ++ "git")) ∧
    (classify e = .Dir (.VersionControl .Svn) →
      entryLine e = some (e.path ++ " # " ++ "svn")) ∧
    (classify e = .File (.Secret .Env) →
      entryLine e = some (e.path ++ " # " ++ "dotenv")) ∧
    (classify e = .File (.Spreadsheet .Excel) →
      entryLine e = some (e.path ++ " # " ++ "excel")) ∧
    (∀ c, c ≠ '\x00' → classify e = .File (.Spreadsheet (.Csv c)) →
      entryLine e = some (e.path ++ " # " ++ ("csv('" ++ c.toString ++ "')"))) ∧
    (classify e = .File (.Document .Pdf) →
      entryLine e = some (e.path ++ " # " ++ "pdf")) ∧
    (classify e = .File (.Document .Word) →
      entryLine e = some (e.path ++ " # " ++ "word")) ∧
    (classify e = .File (.Configuration .Yaml) →
      entryLine e = some (e.path ++ " # " ++ "yaml")) ∧
    (classify e = .File (.Configuration .Json) →
      entryLine e = some (e.path ++ " # " ++ "json")) ∧
    (classify e = .File (.Configuration .Ini) →
      entryLine e = some (e.path ++ " # " ++ "ini")) ∧
    (classify e = .File (.Database .Sqlite) →
      entryLine e = some (e.path ++ " # " ++ "sqlite")) ∧
    (classify e = .File (.Database .Sql) →
      entryLine e = some (e.path ++ " # " ++ "sql")) ∧
    (classify e = .File (.Database .Db) →
      entryLine e = some (e.path ++ " # " ++ "db")) ∧
    (classify e = .File (.Database .Pdb) →
      entryLine e = some (e.path ++ " # " ++ "pdb")) ∧
    (classify e = .File (.Archive .Zip) →
      entryLine e = some (e.path ++ " # " ++ "zip")) ∧
    (classify e = .File (.Archive .Rar) →
      entryLine e = some (e.path ++ " # " ++ "rar")) :=
  ⟨(entryLine_none_iff_and_form e).1, (entryLine_none_iff_and_form e).2,
    fun h => entryLine_eq_of_classify e _ h rfl "git" rfl,
    fun h => entryLine_eq_of_classify e _ h rfl "svn" rfl,
    fun h => entryLine_eq_of_classify e _ h rfl "dotenv" rfl,
    fun h => entryLine_eq_of_classify e _ h rfl "excel" rfl,
    fun c hc h => entryLine_eq_of_classify e _ h (suppressed_csv_of_ne c hc)
      ("csv('" ++ c.toString ++ "')") rfl,
    fun h => entryLine_eq_of_classify e _ h rfl "pdf" rfl,
    fun h => entryLine_eq_of_classify e _ h rfl "word" rfl,
    fun h => entryLine_eq_of_classify e _ h rfl "yaml" rfl,
    fun h => entryLine_eq_of_classify e _ h rfl "json" rfl,
    fun h => entryLine_eq_of_classify e _ h rfl "ini" rfl,
    fun h => entryLine_eq_of_classify e _ h rfl "sqlite" rfl,
    fun h => entryLine_eq_of_classify e _ h rfl "sql" rfl,
    fun h => entryLine_eq_of_classify e _ h rfl "db" rfl,
    fun h => entryLine_eq_of_classify e _ h rfl "pdb" rfl,
    fun h => entryLine_eq_of_classify e _ h rfl "zip" rfl,
    fun h => entryLine_eq_of_classify e _ h rfl "rar" rfl⟩

/-- Witness for C1 at a pdf entry: the variant's fixed label `pdf` is
printed, and the line has the canonical form. -/
theorem C1_witness :
    entryLine ⟨false, "C:\\a.pdf", some "a.pdf", some "pdf", none⟩
      = some ("C:\\a.pdf" ++ " # " ++ "pdf") ∧
    (∃ label, ("C:\\a.pdf" ++ " # " ++ "pdf" : String) = "C:\\a.pdf" ++ " # " ++ label ∧
      (label ∈ (["git", "svn", "dotenv", "excel", "pdf", "word", "yaml", "json", "ini",
          "sqlite", "sql", "db", "pdb", "zip", "rar"] : List String) ∨
        ∃ c, c ∈ ([',', '\t', ':', ';', '|', ' '] : List Char) ∧
          label = "csv('" ++ c.toString ++ "')")) :=
  ⟨(C1_report_line ⟨false, "C:\\a.pdf", some "a.pdf", some "pdf", none⟩).2.2.2.2.2.2.2.1 rfl,
    (C1_report_line ⟨false, "C:\\a.pdf", some "a.pdf", some "pdf", none⟩).2.1
      ("C:\\a.pdf" ++ " # " ++ "pdf") rfl⟩

/-- C10: the sentinel's effective count is `1 +` the number of NUL chars in
the 50,000-char sample; when the sample has no NUL and every real delimiter
occurs at most once, the sentinel wins the tie, the file classifies as
`Spreadsheet(Csv(sentinel))` and is suppressed. -/
theorem C10_sentinel_count (fn x : String) (content : String)
    (hfn : toAsciiLowercase fn ≠ ".env") (hx : toAsciiLowercase x = "csv")
    (hnul : countIn content '\x00' = 0)
    (hreal : ∀ c ∈ ([',', '\t', ':', ';', '|', ' '] : List Char), countIn content c ≤ 1) :
    (countedSeps content).head? = some ('\x00', 1 + countIn content '\x00') ∧
    classify_file (some fn) (some x) (some content) = .Spreadsheet (.Csv '\x00') ∧
    suppressed (.File (.Spreadsheet (.Csv '\x00'))) = true := by
  refine ⟨rfl, ?_, rfl⟩
  rw [classify_file_ne_env fn (some x) (some content) hfn, Option.map_some', hx,
    show classify_ext (some "csv") (some content)
      = .Spreadsheet (.Csv (sniff ((some content).getD ""))) from rfl,
    show ((some content).getD "" : String) = content from rfl,
    sniff_eq_specDelim,
    specDelim_sentinel content (fun c hc => by have := hreal c hc; omega)]

/-- Witness for C10 at content with no delimiter occurrences. -/
theorem C10_witness :
    countIn "ab" '\x00' = 0 ∧
    (∀ c ∈ ([',', '\t', ':', ';', '|', ' '] : List Char), countIn "ab" c ≤ 1) ∧
    classify_file (some "d.csv") (some "csv") (some "ab") = .Spreadsheet (.Csv '\x00') :=
  ⟨by decide, by decide,
    (C10_sentinel_count "d.csv" "csv" "ab" (by decide) (by decide) (by decide) (by decide)).2.1⟩

end Backup
